import Mathlib

/-!
Verification of the portfolio backend core (guards, command registry,
LLM session store) of `btjones-me/personal-website`.

The Python sources are shallowly embedded over `List Char` / `String`:

* `guards.py`    → `validate_input`, `sanitize_output` and the eleven
  compiled injection patterns, embedded as executable matchers;
* `commands.py`  → `CommandRegistry.process_command` with its shell-utility
  denylist regex `_UNIX_PATTERN`;
* `llm.py`       → the session store (`_get_session`, `_trim_session`,
  `clear_session`) and `LLMService.chat`, with the outbound model call
  abstracted as a function returning `Option` (`none` models a raised
  exception).
-/

namespace Portfolio

/-- Python whitespace class for `str.strip` / `str.split` / regex `\s`
(ASCII fragment: space, tab, newline, carriage return, form feed,
vertical tab). -/
def isPyWs (c : Char) : Bool :=
  c = ' ' || c = '\t' || c = '\n' || c = '\x0d' || c = '\x0c' || c = '\x0b'

/-- Python `str.strip()` on a character list: drop leading and trailing
whitespace. -/
def pyStrip (l : List Char) : List Char :=
  ((l.dropWhile isPyWs).reverse.dropWhile isPyWs).reverse

/-- Helper for Python `str.split()` (no separator): accumulate the current
word (reversed) and cut at whitespace runs, producing no empty words. -/
def pySplitAux (cur : List Char) : List Char → List (List Char)
  | [] => if cur = [] then [] else [cur.reverse]
  | c :: t =>
    if isPyWs c then
      if cur = [] then pySplitAux [] t else cur.reverse :: pySplitAux [] t
    else
      pySplitAux (c :: cur) t

/-- Python `str.split()` with no separator: split on whitespace runs,
discarding empty strings. -/
def pySplit (l : List Char) : List (List Char) :=
  pySplitAux [] l

/-- Consume a literal (already-lowercased) pattern case-insensitively off the
front of the input; returns the remainder on success.  Embeds a literal run
of a `re.IGNORECASE` pattern. -/
def dropLitCI : List Char → List Char → Option (List Char)
  | [], s => some s
  | _ :: _, [] => none
  | c :: p, d :: s => if d.toLower = c then dropLitCI p s else none

/-- Consume a single literal character (used for `<`, `>`, `[`, `]`). -/
def dropChar (c : Char) : List Char → Option (List Char)
  | [] => none
  | d :: s => if d = c then some s else none

/-- Regex `\s+`: one or more whitespace characters.  All eleven source
patterns follow `\s+` with a token starting in a non-whitespace character,
so the maximal munch implemented here is equivalent to the backtracking
semantics of `re`. -/
def wsPlus : List Char → Option (List Char)
  | [] => none
  | c :: t => if isPyWs c then some (t.dropWhile isPyWs) else none

/-- Regex `\s*` (same maximal-munch remark as `wsPlus`). -/
def wsStar (l : List Char) : List Char :=
  l.dropWhile isPyWs

/-- Tail `(previous|prior|above)` shared by the first three patterns. -/
def prevPriorAbove (s : List Char) : Bool :=
  (dropLitCI "previous".data s).isSome || (dropLitCI "prior".data s).isSome ||
    (dropLitCI "above".data s).isSome

/-- Regex fragment `(all\s+)?(previous|prior|above)`. -/
def optAllThenTarget (s : List Char) : Bool :=
  (match (dropLitCI "all".data s).bind wsPlus with
    | some s2 => prevPriorAbove s2
    | none => false) ||
  prevPriorAbove s

/-- Shared shape of the `ignore|disregard|forget` patterns:
`VERB\s+(all\s+)?(previous|prior|above)`. -/
def verbThenTarget (verb : List Char) (s : List Char) : Bool :=
  match (dropLitCI verb s).bind wsPlus with
  | some s1 => optAllThenTarget s1
  | none => false

/-- Pattern `ignore\s+(all\s+)?(previous|prior|above)`. -/
def patIgnore (s : List Char) : Bool := verbThenTarget "ignore".data s

/-- Pattern `disregard\s+(all\s+)?(previous|prior|above)`. -/
def patDisregard (s : List Char) : Bool := verbThenTarget "disregard".data s

/-- Pattern `forget\s+(all\s+)?(previous|prior|above)`. -/
def patForget (s : List Char) : Bool := verbThenTarget "forget".data s

/-- Pattern `system\s*prompt`. -/
def patSystemPrompt (s : List Char) : Bool :=
  (((dropLitCI "system".data s).map wsStar).bind (dropLitCI "prompt".data)).isSome

/-- Pattern `you\s+are\s+now`. -/
def patYouAreNow (s : List Char) : Bool :=
  (((((dropLitCI "you".data s).bind wsPlus).bind
      (dropLitCI "are".data)).bind wsPlus).bind (dropLitCI "now".data)).isSome

/-- Pattern `act\s+as\s+(if\s+you\s+are|a)`. -/
def patActAs (s : List Char) : Bool :=
  match (((dropLitCI "act".data s).bind wsPlus).bind
      (dropLitCI "as".data)).bind wsPlus with
  | some s1 =>
    (((((dropLitCI "if".data s1).bind wsPlus).bind
        (dropLitCI "you".data)).bind wsPlus).bind (dropLitCI "are".data)).isSome ||
      (dropLitCI "a".data s1).isSome
  | none => false

/-- Pattern `pretend\s+(to\s+be|you\s+are)`. -/
def patPretend (s : List Char) : Bool :=
  match (dropLitCI "pretend".data s).bind wsPlus with
  | some s1 =>
    (((dropLitCI "to".data s1).bind wsPlus).bind (dropLitCI "be".data)).isSome ||
      (((dropLitCI "you".data s1).bind wsPlus).bind (dropLitCI "are".data)).isSome
  | none => false

/-- Pattern `new\s+instructions`. -/
def patNewInstructions (s : List Char) : Bool :=
  (((dropLitCI "new".data s).bind wsPlus).bind (dropLitCI "instructions".data)).isSome

/-- Pattern `override\s+(instructions|rules)`. -/
def patOverride (s : List Char) : Bool :=
  match (dropLitCI "override".data s).bind wsPlus with
  | some s1 =>
    (dropLitCI "instructions".data s1).isSome || (dropLitCI "rules".data s1).isSome
  | none => false

/-- Shared shape of the two tag patterns: `OPEN\s*system\s*CLOSE`. -/
def patTag (openC closeC : Char) (s : List Char) : Bool :=
  match dropChar openC s with
  | some s1 =>
    match dropLitCI "system".data (wsStar s1) with
    | some s2 => (dropChar closeC (wsStar s2)).isSome
    | none => false
  | none => false

/-- Pattern `<\s*system\s*>`. -/
def patAngleSystem (s : List Char) : Bool := patTag '<' '>' s

/-- Pattern `\[\s*system\s*\]`. -/
def patBracketSystem (s : List Char) : Bool := patTag '[' ']' s

/-- The eleven compiled injection patterns of `guards.py`, in source order. -/
def COMPILED_PATTERNS : List (List Char → Bool) :=
  [patIgnore, patDisregard, patForget, patSystemPrompt, patYouAreNow,
   patActAs, patPretend, patNewInstructions, patOverride, patAngleSystem,
   patBracketSystem]

/-- `re.search` semantics: try the anchored matcher at every start
position. -/
def searchList (p : List Char → Bool) : List Char → Bool
  | [] => p []
  | c :: t => p (c :: t) || searchList p t

/-- The `for pattern in COMPILED_PATTERNS: if pattern.search(message)` loop
of `validate_input`. -/
def hasInjection (l : List Char) : Bool :=
  COMPILED_PATTERNS.any (fun p => searchList p l)

/-- `word_counts` maximum of `validate_input`: the dict maps each distinct
word to its count and the code takes `max(word_counts.values())`; folding
the per-occurrence counts gives the same maximum. -/
def maxRepetition (words : List (List Char)) : Nat :=
  (words.map (fun w => words.count w)).foldr Nat.max 0

/-- The repetition branch of `validate_input` as a single flag: more than 5
words and some word with count strictly above half the total.  The source
float test `max_repetition > len(words) * 0.5` is exact for integers, hence
`2 * max_repetition > len(words)`. -/
def repetitionFires (m : List Char) : Bool :=
  let words := pySplit (m.map Char.toLower)
  decide (words.length > 5) && decide (2 * maxRepetition words > words.length)

/-- `ValidationResult` dataclass of `guards.py`. -/
structure ValidationResult where
  is_valid : Bool
  error_message : Option String := none
deriving DecidableEq, Repr

/-- `"Message cannot be empty."` -/
def EMPTY_INPUT_MESSAGE : String := "Message cannot be empty."

/-- The f-string `"Message too long. Please keep it under {max_chars} characters."`. -/
def tooLongMessage (n : Nat) : String :=
  String.mk ("Message too long. Please keep it under ".data ++
    (toString n).data ++ " characters.".data)

/-- `"I can only answer questions about Ben's professional background."` -/
def INJECTION_MESSAGE : String :=
  "I can only answer questions about Ben\x27s professional background."

/-- `"Please ask a clear question about Ben's experience."` -/
def REPETITION_MESSAGE : String :=
  "Please ask a clear question about Ben\x27s experience."

/-- `guards.validate_input(message, max_chars)`. -/
def validate_input (message : String) (max_chars : Nat) : ValidationResult :=
  if message.data = [] ∨ pyStrip message.data = [] then
    { is_valid := false, error_message := some EMPTY_INPUT_MESSAGE }
  else
    let m := pyStrip message.data
    if m.length > max_chars then
      { is_valid := false, error_message := some (tooLongMessage max_chars) }
    else if hasInjection m then
      { is_valid := false, error_message := some INJECTION_MESSAGE }
    else if repetitionFires m then
      { is_valid := false, error_message := some REPETITION_MESSAGE }
    else
      { is_valid := true }

/-- `"I couldn't generate a response. Please try again."` -/
def EMPTY_OUTPUT_FALLBACK : String :=
  "I couldn\x27t generate a response. Please try again."

/-- Python `prefix.rsplit(" ", 1)[0]`: everything strictly before the last
space character, or the whole list when it contains no space. -/
def pyRsplitSpaceHead (l : List Char) : List Char :=
  if ' ' ∈ l then ((l.reverse.dropWhile (fun c => c != ' ')).drop 1).reverse
  else l

/-- Truncation to the last whole word boundary, following the words of the
specification: keep the prefix of the first `n` characters up to
(excluding) its last space. -/
def lastWordBoundaryTruncate (l : List Char) (n : Nat) : List Char :=
  (((l.take n).reverse.dropWhile (fun c => c != ' ')).drop 1).reverse

/-- `guards.sanitize_output(response, max_chars)`. -/
def sanitize_output (response : String) (max_chars : Nat) : String :=
  if response.data = [] then EMPTY_OUTPUT_FALLBACK
  else
    let l :=
      if response.data.length > max_chars then
        pyRsplitSpaceHead (response.data.take max_chars) ++ "...".data
      else response.data
    String.mk (pyStrip l)

/-! ## `commands.py`: the command registry and dispatch -/

/-- Response dictionary returned by handlers and by `process_command`
(`jsonify` payload).  Only the keys produced by dispatch itself are
modelled; the `cv` handler additionally sets `url`. -/
structure Resp where
  kind : String
  output : String
  url : Option String := none
deriving DecidableEq, Repr

/-- The `Command` dataclass. -/
structure Command where
  name : String
  description : String
  handler : String → Resp

/-- `self._commands`: a Python dict as an insertion-ordered association
list with unique keys. -/
abbrev Registry : Type := List (String × Command)

/-- Python `str.lower()` (ASCII fragment, which covers every registered
command name). -/
def lowerString (s : String) : String :=
  String.mk (s.data.map Char.toLower)

/-- Python dict assignment `d[k] = v`: overwrite in place if the key is
present, else append. -/
def dictInsert (reg : Registry) (k : String) (c : Command) : Registry :=
  if (List.find? (fun p => p.1 == k) reg).isSome then
    List.map (fun p => if p.1 == k then (k, c) else p) reg
  else reg ++ [(k, c)]

/-- `CommandRegistry.register`: insert or overwrite by lowercase name. -/
def register (reg : Registry) (c : Command) : Registry :=
  dictInsert reg (lowerString c.name) c

/-- Python dict lookup `d.get(k)`. -/
def regLookup (reg : Registry) (k : String) : Option Command :=
  (List.find? (fun p => p.1 == k) reg).map Prod.snd

/-- `_SIMULATED_TERMINAL_MESSAGE`. -/
def SIMULATED_TERMINAL_MESSAGE : String :=
  "Oops sorry, this is just a simulation of a real terminal. Type \x27help\x27 to see available commands."

/-- The fixed unavailable message of `_handle_llm_fallback`. -/
def AI_UNAVAILABLE_MESSAGE : String :=
  "AI assistant is unavailable. Type \x27help\x27 to see available commands."

/-- `_UNIX_COMMANDS`, in source order. -/
def UNIX_COMMANDS : List String :=
  ["ls", "cd", "rm", "pwd", "cat", "touch", "mkdir", "rmdir", "cp", "mv",
   "chmod", "chown", "find", "grep", "head", "tail", "less", "more", "ps",
   "top", "kill"]

/-- Regex word character `\w` (ASCII fragment: letters, digits,
underscore). -/
def isWordChar (c : Char) : Bool :=
  c.isAlphanum || c = '_'

/-- The `\b` boundary after an alternative of `_UNIX_PATTERN`: every
denylist name ends in a word character, so the boundary holds exactly when
the remainder is empty or starts with a non-word character. -/
def unixBoundary : List Char → Bool
  | [] => true
  | c :: _ => !isWordChar c

/-- `_UNIX_PATTERN` after the leading `\s*` has been consumed:
`(ls|cd|...)\b` with `re.IGNORECASE`; the regex alternation with
backtracking is an existential over the denylist names. -/
def matchesUnixAt (l : List Char) : Bool :=
  UNIX_COMMANDS.any (fun n =>
    match dropLitCI n.data l with
    | some rest => unixBoundary rest
    | none => false)

/-- `CommandRegistry._is_unix_command`: `_UNIX_PATTERN.match(raw)` with
`_UNIX_PATTERN = ^\s*(ls|cd|...)\b` under `re.IGNORECASE`. -/
def is_unix_command (raw : List Char) : Bool :=
  matchesUnixAt (raw.dropWhile isPyWs)

/-- First whitespace-delimited token of an input
(`raw.split(maxsplit=1)[0]` after stripping). -/
def firstToken (l : List Char) : List Char :=
  (l.dropWhile isPyWs).takeWhile (fun c => !isPyWs c)

/-- `CommandRegistry.process_command`.  The Flask/JSON plumbing is
abstracted: `payload` is the extracted `command` string (absent key
defaults to `""`), the LLM fallback `get_llm_service().ask` is the
function `ask` with `none` modelling a raised exception, and the returned
dict is a `Resp`. -/
def process_command (reg : Registry) (llmEnabled : Bool)
    (ask : String → Option String) (payload : String) : Resp :=
  let raw := pyStrip payload.data
  if raw = [] then
    { kind := "error", output := "Type a command to get started." }
  else if is_unix_command raw then
    { kind := "error", output := SIMULATED_TERMINAL_MESSAGE }
  else
    let command_name := raw.takeWhile (fun c => !isPyWs c)
    match regLookup reg (String.mk (command_name.map Char.toLower)) with
    | some command => command.handler (String.mk raw)
    | none =>
      if llmEnabled then
        match ask (String.mk raw) with
        | some response => { kind := "ai", output := response }
        | none => { kind := "error", output := AI_UNAVAILABLE_MESSAGE }
      else
        { kind := "error",
          output := String.mk ("Unknown command: \x27".data ++ command_name ++
            "\x27. Type \x27help\x27 to see options.".data) }

/-! ## `llm.py`: session store and chat -/

/-- `self._sessions`: dict from session id to message history.  The
message type is a parameter `μ` (`ModelMessage` is opaque third-party
data). -/
abbrev Store (μ : Type) : Type :=
  String → Option (List μ)

/-- Dict update (assignment for `some`, `del` for `none`). -/
def storeSet {μ : Type} (s : Store μ) (k : String) (v : Option (List μ)) :
    Store μ :=
  fun k2 => if k2 = k then v else s k2

/-- The stored turn history of a session as observed through
`_get_session`: an absent entry reads as the empty history. -/
def histOf {μ : Type} (s : Store μ) (sid : String) : List μ :=
  (s sid).getD []

/-- `LLMService._get_session`: create an empty entry when absent, return
the entry together with the (possibly updated) dict. -/
def get_session {μ : Type} (s : Store μ) (sid : String) :
    List μ × Store μ :=
  match s sid with
  | some h => (h, s)
  | none => ([], storeSet s sid (some []))

/-- Python `session[-max_messages:]`.  For `max_messages = 0` the slice is
`session[-0:] = session[0:]`, the whole list; otherwise it keeps the last
`max_messages` entries. -/
def pySliceLast {μ : Type} (l : List μ) (m : Nat) : List μ :=
  if m = 0 then l else l.drop (l.length - m)

/-- `LLMService._trim_session` with
`max_messages = config.LLM_MAX_CONVERSATION_TURNS * 2`. -/
def trim_session {μ : Type} (s : Store μ) (sid : String) (maxTurns : Nat) :
    Store μ :=
  let session := (s sid).getD []
  let max_messages := maxTurns * 2
  if session.length > max_messages then
    storeSet s sid (some (pySliceLast session max_messages))
  else s

/-- `LLMService.clear_session`: delete the entry when present, no-op when
absent. -/
def clear_session {μ : Type} (s : Store μ) (sid : String) : Store μ :=
  match s sid with
  | some _ => storeSet s sid none
  | none => s

/-- The fixed apology of the `except` branches of `ask`/`chat`. -/
def CHAT_APOLOGY : String :=
  "Sorry, I\x27m having trouble responding right now. Please try again."

/-- Python `validation.error_message or "Invalid input."` (`or` also
replaces an empty string). -/
def pyOrString (o : Option String) (d : String) : String :=
  match o with
  | some m => if m.data = [] then d else m
  | none => d

/-- `LLMService.chat`.  `runSync` abstracts
`self.agent.run_sync(message, message_history=...)`: `some (allMessages,
output)` is a successful result carrying `result.all_messages()` and
`result.output`; `none` models a raised exception, handled by the
`except` branch.  `maxInputChars` is `config.LLM_MAX_INPUT_CHARS`,
`maxTurns` is `config.LLM_MAX_CONVERSATION_TURNS`, and `sanitize_output`
is applied with its default `max_chars = 1500`. -/
def chat {μ : Type} (s : Store μ)
    (runSync : String → List μ → Option (List μ × String))
    (maxInputChars maxTurns : Nat) (sid message : String) :
    String × Store μ :=
  let validation := validate_input message maxInputChars
  if validation.is_valid = false then
    (pyOrString validation.error_message "Invalid input.", s)
  else
    match get_session s sid with
    | (message_history, s1) =>
      match runSync message message_history with
      | none => (CHAT_APOLOGY, s1)
      | some (allMessages, output) =>
        let s2 := storeSet s1 sid (some allMessages)
        let s3 := trim_session s2 sid maxTurns
        (sanitize_output output 1500, s3)

/-- A command named like the shell utility `ls`, used to probe registry
shadowing by the denylist check. -/
def cmdLS : Command where
  name := "ls"
  description := "list"
  handler := fun _ => { kind := "text", output := "listing" }

/-- A mixed-case command used to probe case-insensitive dispatch. -/
def cmdGreet : Command where
  name := "Greet"
  description := "greet"
  handler := fun raw => { kind := "text", output := raw }

/-! ## Helper lemmas -/

theorem dropWhile_eq_self_of_all {α : Type} (p : α → Bool) :
    ∀ l : List α, (∀ x ∈ l, p x = false) → l.dropWhile p = l := by
  intro l h
  induction l with
  | nil => rfl
  | cons a t _ =>
    have ha : p a = false := h a (by simp)
    simp [List.dropWhile_cons, ha]

theorem takeWhile_eq_self_of_all {α : Type} (p : α → Bool) :
    ∀ l : List α, (∀ x ∈ l, p x = true) → l.takeWhile p = l := by
  intro l h
  induction l with
  | nil => rfl
  | cons a t ih =>
    have ha : p a = true := h a (by simp)
    simp only [List.takeWhile_cons, ha, if_true]
    rw [ih (fun x hx => h x (by simp [hx]))]

theorem dropWhile_append_of_nil {α : Type} (p : α → Bool) :
    ∀ xs ys : List α, xs.dropWhile p = [] →
      (xs ++ ys).dropWhile p = ys.dropWhile p := by
  intro xs
  induction xs with
  | nil => intro ys _; rfl
  | cons a t ih =>
    intro ys h
    cases hpa : p a with
    | false =>
      rw [List.dropWhile_cons_of_neg (by simp [hpa])] at h
      exact absurd h (by simp)
    | true =>
      rw [List.dropWhile_cons_of_pos hpa] at h
      rw [List.cons_append, List.dropWhile_cons_of_pos hpa]
      exact ih ys h

theorem dropWhile_append_of_ne_nil {α : Type} (p : α → Bool) :
    ∀ xs ys : List α, xs.dropWhile p ≠ [] →
      (xs ++ ys).dropWhile p = xs.dropWhile p ++ ys := by
  intro xs
  induction xs with
  | nil => intro ys h; exact absurd rfl h
  | cons a t ih =>
    intro ys h
    cases hpa : p a with
    | false =>
      rw [List.cons_append, List.dropWhile_cons_of_neg (by simp [hpa]),
        List.dropWhile_cons_of_neg (by simp [hpa]), List.cons_append]
    | true =>
      rw [List.dropWhile_cons_of_pos hpa] at h
      rw [List.cons_append, List.dropWhile_cons_of_pos hpa,
        List.dropWhile_cons_of_pos hpa]
      exact ih ys h

theorem dropWhile_append_last {α : Type} (p : α → Bool) (c : α) :
    ∀ xs : List α, (xs ++ [c]).dropWhile p = [] ∨
      ∃ ys, (xs ++ [c]).dropWhile p = ys ++ [c] := by
  intro xs
  induction xs with
  | nil =>
    by_cases hc : p c = true
    · left; simp [List.dropWhile_cons, hc]
    · right; exact ⟨[], by simp [List.dropWhile_cons, hc]⟩
  | cons a t ih =>
    by_cases ha : p a = true
    · simpa [List.dropWhile_cons, ha] using ih
    · right; exact ⟨a :: t, by simp [List.dropWhile_cons, ha]⟩

theorem dropWhile_head_false {α : Type} (p : α → Bool) :
    ∀ l : List α, l.dropWhile p = [] ∨
      ∃ c t, l.dropWhile p = c :: t ∧ p c = false := by
  intro l
  induction l with
  | nil => left; rfl
  | cons a t ih =>
    by_cases ha : p a = true
    · simpa [List.dropWhile_cons, ha] using ih
    · right
      exact ⟨a, t, by simp [List.dropWhile_cons, ha], by simpa using ha⟩

theorem dropLitCI_toLower : ∀ (t r : List Char),
    dropLitCI (t.map Char.toLower) (t ++ r) = some r := by
  intro t r
  induction t with
  | nil => rfl
  | cons c t ih => simp [dropLitCI, ih]

/-- Right-trimming a token/rest concatenation: when the token is free of
whitespace and the rest is empty or whitespace-headed, the trimmed result
is the token followed by a remainder of the same shape. -/
theorem rtrim_token_decomp (tok rest : List Char)
    (htok : ∀ x ∈ tok, isPyWs x = false)
    (hrest : rest = [] ∨ ∃ w rs, rest = w :: rs ∧ isPyWs w = true) :
    ∃ r, ((tok ++ rest).reverse.dropWhile isPyWs).reverse = tok ++ r ∧
      (r = [] ∨ ∃ w rs, r = w :: rs ∧ isPyWs w = true) := by
  have htokrev : tok.reverse.dropWhile isPyWs = tok.reverse :=
    dropWhile_eq_self_of_all isPyWs tok.reverse
      (fun x hx => htok x (List.mem_reverse.mp hx))
  rcases hrest with hnil | ⟨w, rs, hw, hws⟩
  · subst hnil
    refine ⟨[], ?_, Or.inl rfl⟩
    rw [List.append_nil, htokrev, List.reverse_reverse]
  · subst hw
    have hsplitrev : (tok ++ w :: rs).reverse =
        (rs.reverse ++ [w]) ++ tok.reverse := by
      rw [List.reverse_append, List.reverse_cons, List.append_assoc]
    by_cases h0 : (rs.reverse ++ [w]).dropWhile isPyWs = []
    · refine ⟨[], ?_, Or.inl rfl⟩
      rw [hsplitrev, dropWhile_append_of_nil _ _ _ h0, htokrev,
        List.reverse_reverse, List.append_nil]
    · rcases dropWhile_append_last isPyWs w rs.reverse with h | ⟨ys, hys⟩
      · exact absurd h h0
      · refine ⟨w :: ys.reverse, ?_, Or.inr ⟨w, ys.reverse, rfl, hws⟩⟩
        rw [hsplitrev, dropWhile_append_of_ne_nil _ _ _ h0, hys,
          List.reverse_append, List.reverse_reverse, List.reverse_append]
        simp

/-- Decomposition of a stripped input: it is the first whitespace-delimited
token followed by a remainder that is empty or starts with whitespace. -/
theorem pyStrip_firstToken (l : List Char) :
    ∃ r, pyStrip l = firstToken l ++ r ∧
      (r = [] ∨ ∃ w rs, r = w :: rs ∧ isPyWs w = true) := by
  have hsplit : firstToken l ++
      (l.dropWhile isPyWs).dropWhile (fun c => !isPyWs c) =
      l.dropWhile isPyWs :=
    List.takeWhile_append_dropWhile (fun c => !isPyWs c) (l.dropWhile isPyWs)
  have htok : ∀ x ∈ firstToken l, isPyWs x = false := by
    intro x hx
    have := List.mem_takeWhile_imp hx
    simpa using this
  have hrest : (l.dropWhile isPyWs).dropWhile (fun c => !isPyWs c) = [] ∨
      ∃ w rs, (l.dropWhile isPyWs).dropWhile (fun c => !isPyWs c) = w :: rs ∧
        isPyWs w = true := by
    rcases dropWhile_head_false (fun c => !isPyWs c) (l.dropWhile isPyWs) with
      h | ⟨c, t, hct, hc⟩
    · exact Or.inl h
    · exact Or.inr ⟨c, t, hct, by simpa using hc⟩
  have hmain := rtrim_token_decomp (firstToken l)
    ((l.dropWhile isPyWs).dropWhile (fun c => !isPyWs c)) htok hrest
  rw [hsplit] at hmain
  exact hmain

theorem isPyWs_toLower_fix (c : Char) (h : isPyWs c = true) :
    c.toLower = c := by
  simp only [isPyWs, Bool.or_eq_true, decide_eq_true_eq] at h
  rcases h with ((((h | h) | h) | h) | h) | h <;> subst h <;> decide

theorem isPyWs_not_word (c : Char) (h : isPyWs c = true) :
    isWordChar c = false := by
  simp only [isPyWs, Bool.or_eq_true, decide_eq_true_eq] at h
  rcases h with ((((h | h) | h) | h) | h) | h <;> subst h <;> decide

theorem unix_names_head_ok :
    UNIX_COMMANDS.all (fun n =>
      match n.data with
      | [] => false
      | c :: _ => !isPyWs c) = true := by decide

theorem lt_two_mul_nat_max (t a b : Nat) :
    t < 2 * Nat.max a b ↔ t < 2 * a ∨ t < 2 * b := by
  have h : Nat.max a b = if a ≤ b then b else a := rfl
  rw [h]
  split <;> omega

theorem foldr_max_two_mul_lt {α : Type} (f : α → Nat) (t : Nat) :
    ∀ ws : List α, t < 2 * ((ws.map f).foldr Nat.max 0) ↔
      ∃ w ∈ ws, t < 2 * f w := by
  intro ws
  induction ws with
  | nil => simp
  | cons a l ih =>
    simp only [List.map_cons, List.foldr_cons, List.mem_cons]
    rw [lt_two_mul_nat_max, ih]
    constructor
    · rintro (h | ⟨w, hw, hlt⟩)
      · exact ⟨a, Or.inl rfl, h⟩
      · exact ⟨w, Or.inr hw, hlt⟩
    · rintro ⟨w, hw | hw, hlt⟩
      · subst hw; exact Or.inl hlt
      · exact Or.inr ⟨w, hw, hlt⟩

theorem tooLong_ne_repetition (n : Nat) :
    tooLongMessage n ≠ REPETITION_MESSAGE := by
  intro h
  have hd : (tooLongMessage n).data = REPETITION_MESSAGE.data := by rw [h]
  have hM : (tooLongMessage n).data.head? = some 'M' := by
    show ("Message too long. Please keep it under ".data ++
      (toString n).data ++ " characters.".data).head? = some 'M'
    rfl
  have hP : REPETITION_MESSAGE.data.head? = some 'P' := rfl
  rw [hd, hP] at hM
  exact absurd (Option.some.inj hM) (by decide)

theorem trim_session_at {μ : Type} (s : Store μ) (sid : String) (K : Nat)
    (l : List μ) (h : s sid = some l) :
    histOf (trim_session s sid K) sid =
      if l.length > K * 2 then pySliceLast l (K * 2) else l := by
  by_cases hlen : l.length > K * 2
  · simp [trim_session, h, hlen, histOf, storeSet]
  · simp [trim_session, h, hlen, histOf]

theorem repetitionFires_iff (m : List Char) :
    repetitionFires m = true ↔
      5 < (pySplit (m.map Char.toLower)).length ∧
      ∃ w ∈ pySplit (m.map Char.toLower),
        (pySplit (m.map Char.toLower)).length <
          2 * (pySplit (m.map Char.toLower)).count w := by
  simp only [repetitionFires, maxRepetition, Bool.and_eq_true, decide_eq_true_eq]
  exact and_congr Iff.rfl
    (foldr_max_two_mul_lt (fun w => (pySplit (m.map Char.toLower)).count w)
      (pySplit (m.map Char.toLower)).length (pySplit (m.map Char.toLower)))

/-! ## Claim theorems -/

/-- C1: if the model call inside `chat(session_id, message)` fails
(raises), the session store's turn-history state is not updated — the
stored history of every session after the failed call reads exactly as
before the call — and `chat` returns the fixed apology string. -/
theorem C1_chat_failure_preserves_history {μ : Type} (s : Store μ)
    (runSync : String → List μ → Option (List μ × String))
    (maxInputChars maxTurns : Nat) (sid message : String)
    (hval : (validate_input message maxInputChars).is_valid = true)
    (hfail : runSync message (histOf s sid) = none) :
    (chat s runSync maxInputChars maxTurns sid message).1 = CHAT_APOLOGY ∧
    ∀ sid2, histOf (chat s runSync maxInputChars maxTurns sid message).2 sid2 =
      histOf s sid2 := by
  cases hs : s sid with
  | some h =>
    have hh : histOf s sid = h := by simp [histOf, hs]
    rw [hh] at hfail
    constructor
    · simp [chat, hval, get_session, hs, hfail]
    · intro sid2
      simp [chat, hval, get_session, hs, hfail]
  | none =>
    have hh : histOf s sid = [] := by simp [histOf, hs]
    rw [hh] at hfail
    constructor
    · simp [chat, hval, get_session, hs, hfail]
    · intro sid2
      by_cases hsid : sid2 = sid
      · subst hsid
        simp [chat, hval, get_session, hs, hfail, histOf, storeSet]
      · simp [chat, hval, get_session, hs, hfail, histOf, storeSet, hsid]

/-- C1 witness: a concrete failing model call leaves an empty store
observably unchanged and yields the apology. -/
theorem C1_witness :
    (chat (μ := Nat) (fun _ => none) (fun _ _ => none) 500 10 "s" "hi").1 =
      CHAT_APOLOGY ∧
    histOf (chat (μ := Nat) (fun _ => none) (fun _ _ => none) 500 10 "s" "hi").2
      "s" = histOf (fun _ => none : Store Nat) "s" :=
  ⟨(C1_chat_failure_preserves_history (fun _ => none) (fun _ _ => none) 500 10
      "s" "hi" (by decide) rfl).1,
   (C1_chat_failure_preserves_history (fun _ => none) (fun _ _ => none) 500 10
      "s" "hi" (by decide) rfl).2 "s"⟩

/-- C2: `sanitize_output` returns the fallback string for an empty
response; a response longer than `max_chars` that has a word boundary
(space) within its first `max_chars` characters is truncated at the last
such boundary, an ellipsis marker is appended, and surrounding whitespace
is trimmed. -/
theorem C2_sanitize_output_spec (response : String) (max_chars : Nat) :
    (response = "" → sanitize_output response max_chars = EMPTY_OUTPUT_FALLBACK) ∧
    (response.data.length > max_chars → ' ' ∈ response.data.take max_chars →
      sanitize_output response max_chars =
        String.mk (pyStrip (lastWordBoundaryTruncate response.data max_chars ++
          "...".data))) := by
  constructor
  · intro h; subst h; rfl
  · intro hlen hsp
    have hne : ¬(response.data = []) := by
      intro h; rw [h] at hlen; simp at hlen
    unfold sanitize_output
    rw [if_neg hne]
    show String.mk (pyStrip (if response.data.length > max_chars then
        pyRsplitSpaceHead (response.data.take max_chars) ++ "...".data
      else response.data)) = _
    rw [if_pos hlen]
    unfold pyRsplitSpaceHead
    rw [if_pos hsp]
    rfl

/-- C2 witness: a concrete long response is cut at the last word boundary
within the limit. -/
theorem C2_witness :
    ("hello world friend" : String).data.length > 13 ∧
    sanitize_output "hello world friend" 13 =
      String.mk (pyStrip (lastWordBoundaryTruncate "hello world friend".data 13 ++
        "...".data)) :=
  ⟨by decide,
   (C2_sanitize_output_spec "hello world friend" 13).2 (by decide) (by decide)⟩

/-- C3 counterexample: the empty message satisfies every hypothesis of the
claim's validity clause (trimmed length within the limit, no injection
pattern, no repetition trigger) yet `validate_input` rejects it. -/
theorem C3_counterexample_empty :
    (pyStrip "".data).length ≤ 500 ∧ hasInjection (pyStrip "".data) = false ∧
    repetitionFires (pyStrip "".data) = false ∧
    (validate_input "" 500).is_valid = false := by decide

/-- C3 (amended): a message whose trimmed length exceeds the limit is
rejected with the message naming the character limit; a message that is
non-empty after trimming, within the limit, matching no injection pattern
and not triggering the repetition heuristic is accepted. -/
theorem C3_validate_input_length (message : String) (max_chars : Nat) :
    ((pyStrip message.data).length > max_chars →
      validate_input message max_chars =
        { is_valid := false, error_message := some (tooLongMessage max_chars) }) ∧
    (pyStrip message.data ≠ [] → (pyStrip message.data).length ≤ max_chars →
      hasInjection (pyStrip message.data) = false →
      repetitionFires (pyStrip message.data) = false →
      (validate_input message max_chars).is_valid = true) := by
  constructor
  · intro hlen
    have hne2 : ¬(pyStrip message.data = []) := by
      intro h; rw [h] at hlen; simp at hlen
    have hne1 : ¬(message.data = [] ∨ pyStrip message.data = []) := by
      rintro (h | h)
      · apply hne2; rw [h]; rfl
      · exact hne2 h
    unfold validate_input
    rw [if_neg hne1]
    show (if (pyStrip message.data).length > max_chars then _ else _) = _
    rw [if_pos hlen]
  · intro hne hlen hinj hrep
    have hne1 : ¬(message.data = [] ∨ pyStrip message.data = []) := by
      rintro (h | h)
      · apply hne; rw [h]; rfl
      · exact hne h
    have hnl : ¬((pyStrip message.data).length > max_chars) := by omega
    simp [validate_input, hne1, hnl, hinj, hrep]

/-- C3 witness: a concrete over-long message is rejected with the limit
message, and a concrete clean message is accepted. -/
theorem C3_witness :
    validate_input "hello" 3 =
      { is_valid := false, error_message := some (tooLongMessage 3) } ∧
    (validate_input "what does ben do" 500).is_valid = true :=
  ⟨(C3_validate_input_length "hello" 3).1 (by decide),
   (C3_validate_input_length "what does ben do" 500).2 (by decide) (by decide)
     (by decide) (by decide)⟩

/-- C9: clearing a session twice in a row is safe and a no-op the second
time, afterwards the store holds no entry for the session, and a
subsequent `_get_session` returns an empty history. -/
theorem C9_clear_session_idempotent {μ : Type} (s : Store μ) (sid : String) :
    (∀ k, clear_session (clear_session s sid) sid k = clear_session s sid k) ∧
    clear_session (clear_session s sid) sid sid = none ∧
    (get_session (clear_session (clear_session s sid) sid) sid).1 = [] := by
  have honce : clear_session s sid sid = none := by
    cases hs : s sid with
    | none => simp [clear_session, hs]
    | some h => simp [clear_session, hs, storeSet]
  have htwice : clear_session (clear_session s sid) sid = clear_session s sid := by
    have hdef : clear_session (clear_session s sid) sid =
        match clear_session s sid sid with
        | some _ => storeSet (clear_session s sid) sid none
        | none => clear_session s sid := rfl
    rw [hdef, honce]
  have hnone : clear_session (clear_session s sid) sid sid = none := by
    rw [htwice, honce]
  exact ⟨fun k => by rw [htwice], hnone, by simp [get_session, hnone]⟩

/-- C4 counterexample: a command registered under the name `ls` is
shadowed by the shell-utility denylist check — dispatch on its exact name
returns the simulated-terminal error instead of the handler's result. -/
theorem C4_counterexample_denylist_shadow :
    regLookup (register [] cmdLS) (lowerString cmdLS.name) = some cmdLS ∧
    process_command (register [] cmdLS) true (fun _ => none) "ls" =
      { kind := "error", output := SIMULATED_TERMINAL_MESSAGE } ∧
    ({ kind := "error", output := SIMULATED_TERMINAL_MESSAGE } : Resp) ≠
      cmdLS.handler "ls" :=
  ⟨rfl, rfl, by decide⟩

/-- C4 (amended): for every registered command name and every
whitespace-free case variant of it that does not match the shell-utility
denylist pattern, dispatch on that variant invokes the handler registered
under that name and returns its result. -/
theorem C4_case_insensitive_dispatch (reg : Registry) (llmEnabled : Bool)
    (ask : String → Option String) (name : String) (command : Command)
    (input : String)
    (hreg : regLookup reg (lowerString name) = some command)
    (hvar : lowerString input = lowerString name)
    (hne : input.data ≠ [])
    (hnws : ∀ c ∈ input.data, isPyWs c = false)
    (hnu : is_unix_command input.data = false) :
    process_command reg llmEnabled ask input = command.handler input := by
  have hstrip : pyStrip input.data = input.data := by
    unfold pyStrip
    rw [dropWhile_eq_self_of_all isPyWs input.data hnws,
      dropWhile_eq_self_of_all isPyWs input.data.reverse
        (fun x hx => hnws x (List.mem_reverse.mp hx)),
      List.reverse_reverse]
  have htake : input.data.takeWhile (fun c => !isPyWs c) = input.data :=
    takeWhile_eq_self_of_all _ input.data (fun x hx => by simp [hnws x hx])
  simp only [process_command, hstrip, htake]
  rw [if_neg hne, if_neg (by simp [hnu])]
  have hkey : String.mk (List.map Char.toLower input.data) = lowerString name := by
    rw [← hvar]; rfl
  rw [hkey, hreg]

/-- C4 witness: a concrete mixed-case registered command dispatched under
a different case variant runs its handler. -/
theorem C4_witness :
    process_command (register [] cmdGreet) true (fun _ => none) "GREET" =
      cmdGreet.handler "GREET" :=
  C4_case_insensitive_dispatch (register [] cmdGreet) true (fun _ => none)
    "Greet" cmdGreet "GREET" rfl rfl (by decide) (by decide) (by decide)

/-- C5: every input whose first whitespace-delimited token is a denylist
name (in any letter case, regardless of trailing arguments) is answered
with the fixed simulated-terminal message, for every registry, fallback
flag and adapter — so the check precedes registry lookup and the LLM
fallback. -/
theorem C5_unix_denylist_precedence (reg : Registry) (llmEnabled : Bool)
    (ask : String → Option String) (input : String)
    (hmem : String.mk ((firstToken input.data).map Char.toLower) ∈
      UNIX_COMMANDS) :
    process_command reg llmEnabled ask input =
      { kind := "error", output := SIMULATED_TERMINAL_MESSAGE } := by
  have htne : firstToken input.data ≠ [] := by
    intro h
    rw [h] at hmem
    exact absurd hmem (by decide)
  obtain ⟨r, hps, hr⟩ := pyStrip_firstToken input.data
  obtain ⟨c, tokt, htokeq⟩ : ∃ c t, firstToken input.data = c :: t := by
    cases h : firstToken input.data with
    | nil => exact absurd h htne
    | cons c t => exact ⟨c, t, rfl⟩
  have hcnws : isPyWs c = false := by
    have hmemtok : c ∈ firstToken input.data := by rw [htokeq]; simp
    have h2 := List.mem_takeWhile_imp hmemtok
    simpa using h2
  have hrawne : pyStrip input.data ≠ [] := by
    rw [hps, htokeq]; simp
  have hdw : (pyStrip input.data).dropWhile isPyWs = pyStrip input.data := by
    rw [hps, htokeq, List.cons_append,
      List.dropWhile_cons_of_neg (by simp [hcnws])]
  have hunix : is_unix_command (pyStrip input.data) = true := by
    unfold is_unix_command
    rw [hdw]
    unfold matchesUnixAt
    rw [List.any_eq_true]
    refine ⟨String.mk ((firstToken input.data).map Char.toLower), hmem, ?_⟩
    show (match dropLitCI ((firstToken input.data).map Char.toLower)
        (pyStrip input.data) with
      | some rest => unixBoundary rest
      | none => false) = true
    rw [hps, dropLitCI_toLower]
    rcases hr with h | ⟨w, rs, hweq, hwws⟩
    · rw [h]; rfl
    · rw [hweq]
      show (!isWordChar w) = true
      rw [isPyWs_not_word w hwws]
      rfl
  simp only [process_command]
  rw [if_neg hrawne, if_pos hunix]

/-- C5 witness: `LS -la` (mixed case, with arguments) hits the denylist
even though nothing named `ls` is registered. -/
theorem C5_witness :
    process_command [] true (fun _ => none) "LS -la" =
      { kind := "error", output := SIMULATED_TERMINAL_MESSAGE } :=
  C5_unix_denylist_precedence [] true (fun _ => none) "LS -la" (by decide)

/-- C8: for a non-empty, non-denylisted input whose first token is not
registered, dispatch with the fallback enabled returns `{kind := ai}`
wrapping exactly the adapter's answer on the full raw text, and an
adapter failure is converted into the fixed unavailable message. -/
theorem C8_llm_fallback (reg : Registry) (ask : String → Option String)
    (input : String)
    (hne : pyStrip input.data ≠ [])
    (hnu : is_unix_command (pyStrip input.data) = false)
    (hlook : regLookup reg (String.mk
      (((pyStrip input.data).takeWhile (fun c => !isPyWs c)).map
        Char.toLower)) = none) :
    process_command reg true ask input =
      match ask (String.mk (pyStrip input.data)) with
      | some response => { kind := "ai", output := response }
      | none => { kind := "error", output := AI_UNAVAILABLE_MESSAGE } := by
  simp only [process_command]
  rw [if_neg hne, if_neg (by simp [hnu]), hlook]
  simp

/-- C8 witness: a concrete unknown question is forwarded verbatim to the
adapter and wrapped as an `ai` response. -/
theorem C8_witness :
    process_command [] true (fun q => some q) "hi" =
      { kind := "ai", output := "hi" } :=
  (C8_llm_fallback [] (fun q => some q) "hi" (by decide) (by decide)
    rfl).trans (by decide)

/-- C10: the denylist check matches by word-boundary prefix, not by whole
first token — an input whose stripped text starts (case-insensitively)
with a denylist word followed by a non-word character or the end of the
text is answered with the simulated-terminal message. -/
theorem C10_prefix_boundary_match (reg : Registry) (llmEnabled : Bool)
    (ask : String → Option String) (input : String) (name : String)
    (r : List Char)
    (hname : name ∈ UNIX_COMMANDS)
    (hdrop : dropLitCI name.data (pyStrip input.data) = some r)
    (hbnd : unixBoundary r = true) :
    process_command reg llmEnabled ask input =
      { kind := "error", output := SIMULATED_TERMINAL_MESSAGE } := by
  have hnok : (match name.data with
      | [] => false
      | c :: _ => !isPyWs c) = true :=
    List.all_eq_true.mp unix_names_head_ok name hname
  obtain ⟨c0, nt, hnd⟩ : ∃ c t, name.data = c :: t := by
    cases h : name.data with
    | nil => rw [h] at hnok; exact absurd hnok (by decide)
    | cons c t => exact ⟨c, t, rfl⟩
  have hc0 : isPyWs c0 = false := by
    rw [hnd] at hnok
    simpa using hnok
  obtain ⟨d, s0, hds⟩ : ∃ d s, pyStrip input.data = d :: s := by
    cases h : pyStrip input.data with
    | nil => rw [hnd, h] at hdrop; exact absurd hdrop (by simp [dropLitCI])
    | cons d s => exact ⟨d, s, rfl⟩
  have hdl : d.toLower = c0 := by
    rw [hnd, hds] at hdrop
    by_cases h : d.toLower = c0
    · exact h
    · exact absurd hdrop (by simp [dropLitCI, h])
  have hdnws : isPyWs d = false := by
    by_cases h : isPyWs d = true
    · have hfix := isPyWs_toLower_fix d h
      have hcd : c0 = d := by rw [← hdl, hfix]
      rw [hcd] at hc0
      exact absurd h (by simp [hc0])
    · simpa using h
  have hrawne : pyStrip input.data ≠ [] := by rw [hds]; simp
  have hdw : (pyStrip input.data).dropWhile isPyWs = pyStrip input.data := by
    rw [hds, List.dropWhile_cons_of_neg (by simp [hdnws])]
  have hunix : is_unix_command (pyStrip input.data) = true := by
    unfold is_unix_command
    rw [hdw]
    unfold matchesUnixAt
    rw [List.any_eq_true]
    refine ⟨name, hname, ?_⟩
    show (match dropLitCI name.data (pyStrip input.data) with
      | some rest => unixBoundary rest
      | none => false) = true
    rw [hdrop]
    exact hbnd
  simp only [process_command]
  rw [if_neg hrawne, if_pos hunix]

/-- C10 witness: `ls-la` (whose first token is not a denylist name) hits
the denylist via the word boundary, while `top10` does not match and
reaches the fallback. -/
theorem C10_witness :
    process_command [] true (fun _ => some "x") "ls-la" =
      { kind := "error", output := SIMULATED_TERMINAL_MESSAGE } ∧
    String.mk ((firstToken "ls-la".data).map Char.toLower) ∉ UNIX_COMMANDS ∧
    process_command [] true (fun _ => some "x") "top10" ≠
      { kind := "error", output := SIMULATED_TERMINAL_MESSAGE } :=
  ⟨C10_prefix_boundary_match [] true (fun _ => some "x") "ls-la" "ls"
      "-la".data (by decide) (by decide) (by decide),
   by decide, by decide⟩

/-- C6 counterexample: with configured max-turns K = 0 a successful chat
turn leaves 2 stored messages, violating the `≤ 2·K` bound — the Python
slice `session[-max_messages:]` is `session[-0:]`, the whole list. -/
theorem C6_counterexample_zero_turns :
    histOf (chat (μ := Nat) (fun _ => none) (fun _ _ => some ([1, 2], "ok"))
      500 0 "s" "hi").2 "s" = [1, 2] ∧
    ¬ ((histOf (chat (μ := Nat) (fun _ => none)
      (fun _ _ => some ([1, 2], "ok")) 500 0 "s" "hi").2 "s").length ≤ 2 * 0) := by
  decide

/-- C6 (amended): with configured max-turns K ≥ 1, after a successful chat
turn's trimming the stored message count for the session is at most 2K,
and when trimming discards entries the retained entries are exactly the
most recent 2K of the result's message list, in their original order. -/
theorem C6_trim_invariant {μ : Type} (s : Store μ)
    (runSync : String → List μ → Option (List μ × String))
    (maxInputChars K : Nat) (sid message : String)
    (allMessages : List μ) (output : String)
    (hK : 1 ≤ K)
    (hval : (validate_input message maxInputChars).is_valid = true)
    (hrun : runSync message (histOf s sid) = some (allMessages, output)) :
    (histOf (chat s runSync maxInputChars K sid message).2 sid).length ≤ 2 * K ∧
    (allMessages.length > 2 * K →
      histOf (chat s runSync maxInputChars K sid message).2 sid =
        allMessages.drop (allMessages.length - 2 * K)) ∧
    (allMessages.length ≤ 2 * K →
      histOf (chat s runSync maxInputChars K sid message).2 sid =
        allMessages) := by
  obtain ⟨s1, hstep⟩ : ∃ s1, (chat s runSync maxInputChars K sid message).2 =
      trim_session (storeSet s1 sid (some allMessages)) sid K := by
    cases hs : s sid with
    | some h =>
      refine ⟨s, ?_⟩
      have hh : histOf s sid = h := by simp [histOf, hs]
      rw [hh] at hrun
      simp [chat, hval, get_session, hs, hrun]
    | none =>
      refine ⟨storeSet s sid (some []), ?_⟩
      have hh : histOf s sid = [] := by simp [histOf, hs]
      rw [hh] at hrun
      simp [chat, hval, get_session, hs, hrun]
  rw [hstep]
  have hat : (storeSet s1 sid (some allMessages)) sid = some allMessages := by
    simp [storeSet]
  rw [trim_session_at _ sid K allMessages hat]
  by_cases hlen : allMessages.length > K * 2
  · rw [if_pos hlen]
    have h2 : ¬(K * 2 = 0) := by omega
    have hdrop : pySliceLast allMessages (K * 2) =
        allMessages.drop (allMessages.length - K * 2) := by
      simp [pySliceLast, h2]
    rw [hdrop]
    refine ⟨?_, ?_, ?_⟩
    · rw [List.length_drop]; omega
    · intro _
      rw [Nat.mul_comm 2 K]
    · intro hle
      exact absurd hle (by omega)
  · rw [if_neg hlen]
    exact ⟨by omega, fun hgt => absurd hgt (by omega), fun _ => rfl⟩

/-- C6 witness: with K = 1 a result of 3 messages is trimmed to the most
recent 2. -/
theorem C6_witness :
    (histOf (chat (μ := Nat) (fun _ => none)
      (fun _ _ => some ([1, 2, 3], "ok")) 500 1 "s" "hi").2 "s").length ≤
        2 * 1 ∧
    histOf (chat (μ := Nat) (fun _ => none)
      (fun _ _ => some ([1, 2, 3], "ok")) 500 1 "s" "hi").2 "s" =
      [1, 2, 3].drop ([1, 2, 3].length - 2 * 1) :=
  ⟨(C6_trim_invariant (fun _ => none) (fun _ _ => some ([1, 2, 3], "ok")) 500 1
      "s" "hi" [1, 2, 3] "ok" (by decide) (by decide) rfl).1,
   (C6_trim_invariant (fun _ => none) (fun _ _ => some ([1, 2, 3], "ok")) 500 1
      "s" "hi" [1, 2, 3] "ok" (by decide) (by decide) rfl).2.1 (by decide)⟩

/-- C7: for a message within the length limit, free of injection patterns
and splitting into more than 5 lowercase words, `validate_input` rejects
exactly when some single word accounts for strictly more than half of the
word count; with 5 or fewer words the repetition check never fires. -/
theorem C7_repetition_heuristic (message : String) (max_chars : Nat) :
    ((pySplit ((pyStrip message.data).map Char.toLower)).length > 5 →
      (pyStrip message.data).length ≤ max_chars →
      hasInjection (pyStrip message.data) = false →
      ((validate_input message max_chars).is_valid = false ↔
        ∃ w ∈ pySplit ((pyStrip message.data).map Char.toLower),
          2 * (pySplit ((pyStrip message.data).map Char.toLower)).count w >
            (pySplit ((pyStrip message.data).map Char.toLower)).length)) ∧
    ((pySplit ((pyStrip message.data).map Char.toLower)).length ≤ 5 →
      (validate_input message max_chars).error_message ≠
        some REPETITION_MESSAGE) := by
  constructor
  · intro hw hlen hinj
    have hmne : pyStrip message.data ≠ [] := by
      intro h
      rw [h] at hw
      exact absurd hw (by decide)
    have hne1 : ¬(message.data = [] ∨ pyStrip message.data = []) := by
      rintro (h | h)
      · apply hmne; rw [h]; rfl
      · exact hmne h
    have hnl : ¬((pyStrip message.data).length > max_chars) := by omega
    by_cases hrep : repetitionFires (pyStrip message.data) = true
    · have hv : validate_input message max_chars =
          { is_valid := false, error_message := some REPETITION_MESSAGE } := by
        simp [validate_input, hne1, hnl, hinj, hrep]
      rw [hv]
      exact ⟨fun _ => ((repetitionFires_iff (pyStrip message.data)).mp hrep).2,
        fun _ => rfl⟩
    · have hv : validate_input message max_chars = { is_valid := true } := by
        rw [Bool.not_eq_true] at hrep
        simp [validate_input, hne1, hnl, hinj, hrep]
      rw [hv]
      constructor
      · intro hcon
        exact absurd hcon (by decide)
      · intro hex
        exact absurd ((repetitionFires_iff (pyStrip message.data)).mpr
          ⟨hw, hex⟩) hrep
  · intro hw5
    have hrep : repetitionFires (pyStrip message.data) = false := by
      have hnw : ¬(5 < (pySplit ((pyStrip message.data).map Char.toLower)).length) := by
        omega
      simp [repetitionFires, hnw]
    by_cases h1 : message.data = [] ∨ pyStrip message.data = []
    · have hv : validate_input message max_chars =
          { is_valid := false, error_message := some EMPTY_INPUT_MESSAGE } := by
        simp [validate_input, h1]
      rw [hv]
      intro hcon
      exact absurd (Option.some.inj hcon) (by decide)
    · by_cases h2 : (pyStrip message.data).length > max_chars
      · have hv : validate_input message max_chars =
            { is_valid := false,
              error_message := some (tooLongMessage max_chars) } := by
          simp [validate_input, h1, h2]
        rw [hv]
        intro hcon
        exact tooLong_ne_repetition max_chars (Option.some.inj hcon)
      · by_cases h3 : hasInjection (pyStrip message.data) = true
        · have hv : validate_input message max_chars =
              { is_valid := false, error_message := some INJECTION_MESSAGE } := by
            simp [validate_input, h1, h2, h3]
          rw [hv]
          intro hcon
          exact absurd (Option.some.inj hcon) (by decide)
        · have hv : validate_input message max_chars = { is_valid := true } := by
            rw [Bool.not_eq_true] at h3
            simp [validate_input, h1, h2, h3, hrep]
          rw [hv]
          simp

/-- C7 witness: six identical words are rejected by the repetition check;
a three-word message never receives the repetition message. -/
theorem C7_witness :
    (validate_input "ben ben ben ben ben ben" 500).is_valid = false ∧
    (validate_input "one two three" 500).error_message ≠
      some REPETITION_MESSAGE :=
  ⟨((C7_repetition_heuristic "ben ben ben ben ben ben" 500).1 (by decide)
      (by decide) (by decide)).mpr ⟨"ben".data, by decide, by decide⟩,
   (C7_repetition_heuristic "one two three" 500).2 (by decide)⟩

end Portfolio
